import Mathlib

/-!
Verification of the mode state machines and diff parser of the `gituse`
terminal version-control client (`src/mode/log.rs` and `src/mode/diff.rs`).

Strings are embedded as `List Char`; Rust byte positions coincide with
character positions on the ASCII inputs exercised here.  Fallible Rust code
(`unwrap`, `panic!`) is embedded with `Option`, `none` standing for a panic.
External collaborators that are not part of the two source files (the
`Filter` and `SelectMenu` widgets, the `Output` buffer, `LogEntry`, the key
type) are modelled from the spec; each such definition says so in its doc
comment.
-/

set_option maxRecDepth 20000

/-- Embeds Rust `str::starts_with`: `listStartsWith p l` is true when `p` is an
initial segment of `l`. -/
def listStartsWith : List Char → List Char → Bool
  | [], _ => true
  | _ :: _, [] => false
  | p :: ps, c :: cs => p == c && listStartsWith ps cs

/-- Embeds Rust `str::find` for a literal needle: index of the first position
of `hay` at which `needle` begins, if any. -/
def findSub (needle : List Char) : List Char → Option Nat
  | [] => if needle.isEmpty then some 0 else none
  | c :: rest =>
    if listStartsWith needle (c :: rest) then some 0
    else
      match findSub needle rest with
      | some n => some (n + 1)
      | none => none

/-- `containsSub needle hay` holds when `needle` occurs somewhere in `hay`. -/
def containsSub (needle hay : List Char) : Bool :=
  (findSub needle hay).isSome

/-- One trailing carriage return is removed from a line, as Rust
`str::lines` does at a `\n` boundary. -/
def stripCR (l : List Char) : List Char :=
  match l.getLast? with
  | some c => if c = '\r' then l.dropLast else l
  | none => l

/-- Worker for `splitLines`; `acc` holds the current line reversed. -/
def splitLinesAux : List Char → List Char → List (List Char)
  | acc, [] => if acc.isEmpty then [] else [acc.reverse]
  | acc, c :: rest =>
    if c = '\n' then stripCR acc.reverse :: splitLinesAux [] rest
    else splitLinesAux (c :: acc) rest

/-- Embeds Rust `str::lines`: split at `\n`, strip a `\r` before each `\n`,
and do not produce a final empty line for a trailing newline. -/
def splitLines (cs : List Char) : List (List Char) :=
  splitLinesAux [] cs

/-- Embeds Rust `str::parse::<u32>`: an optional leading `+`, then decimal
digits, rejecting the empty string and values outside `u32` range. -/
def parseU32 (cs : List Char) : Option Nat :=
  let ds := match cs with
    | '+' :: rest => rest
    | _ => cs
  if ds.isEmpty then none
  else if ds.all Char.isDigit then
    let n := ds.foldl (fun a c => a * 10 + (c.toNat - '0'.toNat)) 0
    if n < 4294967296 then some n else none
  else none

/-- Decimal digits of a natural number, as used by Rust `{}` formatting. -/
def natChars (n : Nat) : List Char :=
  Nat.toDigits 10 n

namespace Diff

/-- `FileMode` from `diff.rs`: how a file appears in the diff. -/
inductive FileMode
  | Modified
  | Deleted
  deriving DecidableEq

/-- Rust `{:?}` (Debug) rendering of a `FileMode`, used by serialization. -/
def FileMode.debugChars : FileMode → List Char
  | .Modified => "Modified".toList
  | .Deleted => "Deleted".toList

/-- `LineDiff` from `diff.rs`: one hunk with its starting line number and
accumulated text. -/
structure LineDiff where
  line_number : Nat
  text : List Char
  deriving DecidableEq

/-- `FileDiff` from `diff.rs`: one file of the structured diff document. -/
structure FileDiff where
  filename : List Char
  mode : FileMode
  lines : List LineDiff
  deriving DecidableEq

/-- `FilesDiff` from `diff.rs`: the whole structured diff document. -/
structure FilesDiff where
  files : List FileDiff
  deriving DecidableEq

/-- Applies `f` to the last element of a list; `none` when the list is empty,
embedding the `last_mut().unwrap()` panics of `diff.rs`. -/
def modifyLastM {α : Type} (f : α → Option α) : List α → Option (List α)
  | [] => none
  | [a] => (f a).map (fun b => [b])
  | a :: rest => (modifyLastM f rest).map (fun l => a :: l)

/-- `FilesDiff::new_file`: push a fresh file record. -/
def FilesDiff.new_file (fd : FilesDiff) (filename : List Char) (mode : FileMode) : FilesDiff :=
  ⟨fd.files ++ [⟨filename, mode, []⟩]⟩

/-- `FilesDiff::file_mode`: overwrite the mode of the most recent file. -/
def FilesDiff.file_mode (fd : FilesDiff) (mode : FileMode) : Option FilesDiff :=
  (modifyLastM (fun f => some { f with mode := mode }) fd.files).map FilesDiff.mk

/-- `FilesDiff::new_line`: push a fresh hunk record onto the most recent file. -/
def FilesDiff.new_line (fd : FilesDiff) (n : Nat) : Option FilesDiff :=
  (modifyLastM (fun f => some { f with lines := f.lines ++ [⟨n, []⟩] }) fd.files).map FilesDiff.mk

/-- `FilesDiff::add_text`: append text to the most recent hunk of the most
recent file. -/
def FilesDiff.add_text (fd : FilesDiff) (t : List Char) : Option FilesDiff :=
  (modifyLastM
    (fun f =>
      (modifyLastM (fun ld => some { ld with text := ld.text ++ t }) f.lines).map
        (fun ls => { f with lines := ls }))
    fd.files).map FilesDiff.mk

/-- Serialization of one hunk: the `@@@N` line followed by the hunk body. -/
def LineDiff.output (filename : List Char) (ld : LineDiff) : List Char :=
  "@@@N@--- ".toList ++ filename ++ ":Line ".toList ++ natChars ld.line_number
    ++ " ---@\n".toList ++ ld.text

/-- Serialization of one file: the `@@@L`-bracketed `@@@H` header block, then
every hunk, as in `FilesDiff::output`. -/
def FileDiff.output (f : FileDiff) : List Char :=
  "@@@L\n".toList
    ++ "@@@H".toList ++ f.mode.debugChars ++ ": ".toList ++ f.filename ++ ['\n']
    ++ "@@@L\n".toList
    ++ (f.lines.map (LineDiff.output f.filename)).flatten

/-- `FilesDiff::output`: serialization of the whole document. -/
def FilesDiff.output (fd : FilesDiff) : List Char :=
  (fd.files.map FileDiff.output).flatten

/-- `ParseState` from `diff.rs`. -/
inductive ParseState
  | Start
  | FileHeader (filename : List Char) (mode : FileMode)
  | FileMode (mode : Diff.FileMode)
  | FileContent
  | FileEnd
  | LineHeader (n : Nat)
  | LineContent
  deriving DecidableEq

/-- `ParseEvent` from `diff.rs`. -/
inductive ParseEvent
  | FileDiffStart (filename : List Char) (mode : FileMode)
  | FileDiffMode (mode : Diff.FileMode)
  | FileDiffContent
  | FileDiffEnd
  | LineDiffStart (n : Nat)
  | LineDiffContent
  deriving DecidableEq

/-- `ParseEvent::new`: classify one line given the current state; `none`
embeds the `unwrap` panics on malformed marker lines. -/
def ParseEvent.new (state : ParseState) (line : List Char) : Option ParseEvent :=
  if listStartsWith ("diff --git".toList) line then
    match findSub (" b/".toList) line with
    | some pos => some (.FileDiffStart (line.drop (pos + 3)) .Modified)
    | none => none
  else if listStartsWith ("---".toList) line then some .FileDiffContent
  else if listStartsWith ("+++".toList) line then some .FileDiffEnd
  else if listStartsWith ("@@ ".toList) line then
    match findSub (" +".toList) line with
    | none => none
    | some pos =>
      let rest := line.drop (pos + 2)
      match findSub ([','] : List Char) rest with
      | some p =>
        match parseU32 (rest.take p) with
        | some n => some (.LineDiffStart n)
        | none => none
      | none => some (.LineDiffStart 0)
  else
    match state with
    | .FileHeader _ _ =>
      if listStartsWith ("deleted".toList) line then some (.FileDiffMode .Deleted)
      else some .FileDiffContent
    | .FileContent => some .FileDiffContent
    | _ => some .LineDiffContent

/-- `ParseState::line`: the transition table of the parser; `none` embeds the
`panic!("Invalid!")` arms. -/
def ParseState.line (st : ParseState) (l : List Char) : Option ParseState :=
  match ParseEvent.new st l with
  | none => none
  | some ev =>
    match st with
    | .Start =>
      match ev with
      | .FileDiffStart filename mode => some (.FileHeader filename mode)
      | _ => none
    | .FileHeader _ _ =>
      match ev with
      | .FileDiffMode mode => some (.FileMode mode)
      | _ => some .FileContent
    | .FileMode _ => some .FileContent
    | .FileContent =>
      match ev with
      | .FileDiffEnd => some .FileEnd
      | _ => some .FileContent
    | .FileEnd =>
      match ev with
      | .LineDiffStart n => some (.LineHeader n)
      | _ => none
    | .LineHeader _ =>
      match ev with
      | .LineDiffContent => some .LineContent
      | _ => none
    | .LineContent =>
      match ev with
      | .LineDiffContent => some .LineContent
      | .FileDiffStart filename mode => some (.FileHeader filename mode)
      | .LineDiffStart n => some (.LineHeader n)
      | _ => none

/-- `ParseState::output`: accumulation into the document, driven by the state
just entered for the line. -/
def ParseState.output (st : ParseState) (l : List Char) (fd : FilesDiff) : Option FilesDiff :=
  match st with
  | .FileHeader filename mode => some (fd.new_file filename mode)
  | .FileMode mode => fd.file_mode mode
  | .LineHeader n =>
    match fd.new_line n with
    | none => none
    | some fd1 =>
      match findSub (" @@ ".toList) l with
      | some pos => fd1.add_text (l.drop (pos + 4) ++ ['\n'])
      | none => some fd1
  | .LineContent => fd.add_text (l ++ ['\n'])
  | _ => some fd

/-- The loop body of `format_files_diff`: transition, then accumulate. -/
def parseLoop : ParseState → FilesDiff → List (List Char) → Option FilesDiff
  | _, fd, [] => some fd
  | st, fd, l :: rest =>
    match ParseState.line st l with
    | none => none
    | some st1 =>
      match ParseState.output st1 l fd with
      | none => none
      | some fd1 => parseLoop st1 fd1 rest

/-- `format_files_diff` from `diff.rs`: parse the raw diff text and serialize
the resulting document; `none` embeds a parse panic. -/
def format_files_diff (text : List Char) : Option (List Char) :=
  (parseLoop .Start ⟨[]⟩ (splitLines text)).map FilesDiff.output

end Diff

/-- Modelled from the spec: the abstract key identifiers of §6 (navigation
keys, Enter, Tab, Ctrl-combinations, character keys); the key type lives in
`platform.rs`, outside the given sources. -/
inductive Key
  | Enter
  | Tab
  | Ctrl (c : Char)
  | Char (c : Char)
  | Up
  | Down
  | PageUp
  | PageDown
  | Home
  | End
  deriving DecidableEq

/-- The mode identifiers referenced by `log.rs` and `diff.rs`; the full enum
lives in `mode.rs`, outside the given sources. -/
inductive ModeKind
  | Log
  | Diff
  | RevisionDetails
  deriving DecidableEq

/-- `ModeChangeInfo` as used by `Mode::on_enter` in `diff.rs`: it carries the
mode the screen was entered from. -/
structure ModeChangeInfo where
  fromMode : ModeKind
  deriving DecidableEq

/-- Modelled from the spec: the immutable `LogEntry` record of §3 (graph
glyph text, hash, date, author, refs, message); the struct lives in
`backend.rs`, outside the given sources. -/
structure LogEntry where
  graph : List Char
  hash : List Char
  date : List Char
  author : List Char
  refs : List Char
  message : List Char
  deriving DecidableEq

instance : Inhabited LogEntry :=
  ⟨⟨[], [], [], [], [], []⟩⟩

/-- The backend calls and engine effects a mode can issue; each `request`
closure of `log.rs` chains an automatic `log(0, h)` refresh after the named
backend call. -/
inductive Request
  | refresh
  | checkout (revision : List Char)
  | reset (revision : List Char)
  | merge (revision : List Char)
  | fetch
  | pull
  | push
  | pushGerrit
  | logPage (start : Nat) (limit : Nat)
  | modeChange (target : ModeKind) (hash : List Char)
  deriving DecidableEq

/-- Modelled from the spec: `SelectMenu::saturate_cursor` (external widget)
clamps the selection cursor into `[0, count)`, to `0` when `count` is `0`
(§4.2 and §8, cursor always within the visible count). -/
def saturateCursor (cursor count : Nat) : Nat :=
  if count = 0 then 0 else min cursor (count - 1)

/-- Modelled from the spec: `SelectMenu::on_key` (external widget) moves the
selection cursor with the navigation keys, clamped to the visible count;
other keys leave the cursor unchanged (§4.2, passive navigation). -/
def selectOnKey (count availableHeight cursor : Nat) (key : Key) : Nat :=
  match key with
  | .Up => saturateCursor (cursor - 1) count
  | .Down => saturateCursor (cursor + 1) count
  | .PageUp => saturateCursor (cursor - availableHeight) count
  | .PageDown => saturateCursor (cursor + availableHeight) count
  | .Home => saturateCursor 0 count
  | .End => saturateCursor (count - 1) count
  | _ => cursor

/-- Modelled from the spec: the `Filter` widget's key handling while it has
focus (§4.2, filter-typing mode): typed characters extend the filter text,
Enter leaves filter focus, other keys change nothing. -/
def filterOnKey (q : List Char) (key : Key) : List Char × Bool :=
  match key with
  | .Char c => (q ++ [c], true)
  | .Enter => (q, false)
  | _ => (q, true)

/-- Modelled from the spec: `Filter::filter` (external widget) recomputes the
indices of the entries visible under the active filter text; an empty filter
shows every entry, otherwise an entry is visible when the filter text occurs
in its message (§2, narrowing the entry list by text). -/
def applyFilter (q : List Char) (entries : List LogEntry) : List Nat :=
  (List.range entries.length).filter
    (fun i => q.isEmpty || containsSub q (entries.getD i default).message)

namespace Log

/-- `WaitOperation` from `log.rs`. -/
inductive WaitOperation
  | Refresh
  | Checkout
  | Merge
  | Fetch
  | Pull
  | Push
  | Reset
  deriving DecidableEq

/-- `State` from `log.rs`. -/
inductive State
  | Idle
  | Waiting (op : WaitOperation)
  deriving DecidableEq

/-- `Mode` from `log.rs`.  The external collaborators are flattened into the
record: `select.cursor` becomes `cursor`, and the `Filter` widget becomes
`filterQuery` (its text), `visible` (its cached visible indices) and
`filterHasFocus`; `output` is the text of the `Output` buffer. -/
structure Mode where
  state : State
  entries : List LogEntry
  output : List Char
  cursor : Nat
  visible : List Nat
  filterQuery : List Char
  filterHasFocus : Bool
  showFullHoveredMessage : Bool
  deriving DecidableEq

/-- `Mode::on_enter` from `log.rs`: a no-op while `Waiting`, otherwise reset
the view state, move to `Waiting(Refresh)` and issue the refresh request. -/
def Mode.on_enter (m : Mode) : Mode × List Request :=
  match m.state with
  | .Waiting _ => (m, [])
  | .Idle =>
    let visible := applyFilter m.filterQuery m.entries
    ({ m with
        state := .Waiting .Refresh
        output := []
        visible := visible
        cursor := saturateCursor m.cursor visible.length
        showFullHoveredMessage := false },
      [.refresh])

/-- The `State::Idle` command dispatch of `Mode::on_key` (`log.rs` lines
184-232): single-character commands, each guarded by `Idle` and, for the
revision commands, by a selected entry. -/
def Mode.idleCommand (m : Mode) (currentEntryIndex : Option Nat) (key : Key) :
    Mode × List Request :=
  match m.state with
  | .Waiting _ => (m, [])
  | .Idle =>
    match key with
    | .Char c =>
      if c = 'c' then
        match currentEntryIndex with
        | some i =>
          ({ m with state := .Waiting .Checkout }, [.checkout (m.entries.getD i default).hash])
        | none => (m, [])
      else if c = 'r' then
        match currentEntryIndex with
        | some i =>
          ({ m with state := .Waiting .Reset }, [.reset (m.entries.getD i default).hash])
        | none => (m, [])
      else if c = 'R' then
        ({ m with state := .Waiting .Reset }, [.reset []])
      else if c = 'm' then
        match currentEntryIndex with
        | some i =>
          ({ m with state := .Waiting .Merge }, [.merge (m.entries.getD i default).hash])
        | none => (m, [])
      else if c = 'f' then ({ m with state := .Waiting .Fetch }, [.fetch])
      else if c = 'p' then ({ m with state := .Waiting .Pull }, [.pull])
      else if c = 'P' then ({ m with state := .Waiting .Push }, [.push])
      else if c = 'g' then ({ m with state := .Waiting .Push }, [.pushGerrit])
      else (m, [])
    | _ => (m, [])

/-- The key dispatch chain of `Mode::on_key` (`log.rs` lines 174-232): Enter
opens revision details, Tab toggles the full message, Ctrl-f focuses the
filter, and everything else falls to the `Idle` command dispatch. -/
def Mode.keyCommand (m : Mode) (currentEntryIndex : Option Nat) (key : Key) :
    Mode × List Request :=
  match key with
  | .Enter =>
    match currentEntryIndex with
    | some i =>
      (m, [.modeChange .RevisionDetails (m.entries.getD i default).hash])
    | none => (m, [])
  | .Tab => ({ m with showFullHoveredMessage := !m.showFullHoveredMessage }, [])
  | .Ctrl c =>
    if c = 'f' then ({ m with filterHasFocus := true }, [])
    else m.idleCommand currentEntryIndex (.Ctrl c)
  | k => m.idleCommand currentEntryIndex k

/-- The pagination guard of `Mode::on_key` (`log.rs` line 164): the state is
`Idle` and the current entry index is the last loaded entry. -/
def Mode.paginationFires (m : Mode) (currentEntryIndex : Option Nat) : Bool :=
  (match m.state with
    | .Idle => true
    | .Waiting _ => false)
    && (match currentEntryIndex with
        | some i => i + 1 == m.entries.length
        | none => false)

/-- The non-focused part of `Mode::on_key` (`log.rs` lines 160-232): cursor
movement, the pagination fetch when the cursor sits on the last loaded entry
in `Idle`, and the key dispatch. -/
def Mode.on_key_unfocused (m : Mode) (availableHeight : Nat) (key : Key) :
    Mode × List Request × Bool :=
  let m1 := { m with cursor := selectOnKey m.visible.length availableHeight m.cursor key }
  let currentEntryIndex := m1.visible.get? m1.cursor
  let step :=
    if m1.paginationFires currentEntryIndex then
      ({ m1 with state := .Waiting .Refresh },
        [Request.logPage m1.entries.length availableHeight])
    else (m1, [])
  let final := step.1.keyCommand currentEntryIndex key
  (final.1, step.2 ++ final.2, false)

/-- `Mode::on_key` from `log.rs`.  Returns the new mode, the issued requests,
and the `pending_input` flag of `ModeStatus`. -/
def Mode.on_key (m : Mode) (availableHeight : Nat) (key : Key) :
    Mode × List Request × Bool :=
  if m.filterHasFocus then
    let qf := filterOnKey m.filterQuery key
    let visible := applyFilter qf.1 m.entries
    ({ m with
        filterQuery := qf.1
        filterHasFocus := qf.2
        visible := visible
        cursor := saturateCursor m.cursor visible.length },
      [], true)
  else
    m.on_key_unfocused availableHeight key

/-- `Mode::on_response` from `log.rs` for a `Refresh` result: clear the
output, leave `Waiting`, merge the result (truncate-and-extend on success,
clear-and-report on error), then re-filter and clamp the cursor. -/
def Mode.on_response (m : Mode) (result : Except (List Char) (Nat × List LogEntry)) : Mode :=
  let m1 := { m with output := [] }
  let m2 :=
    match m1.state with
    | .Waiting _ => { m1 with state := .Idle }
    | .Idle => m1
  let m3 :=
    match m2.state with
    | .Idle =>
      match result with
      | .ok (startIndex, newEntries) =>
        { m2 with entries := m2.entries.take startIndex ++ newEntries }
      | .error err => { m2 with entries := [], output := err }
    | .Waiting _ => m2
  let visible := applyFilter m3.filterQuery m3.entries
  { m3 with visible := visible, cursor := saturateCursor m3.cursor visible.length }

end Log

/-- The wrapped-row count of `LogEntry::draw` (`log.rs` lines 64-77) for the
full multi-line message: the source initializes `x` to `0` for each line and
never increases it inside the character loop, so the wrap branch only fires
when the viewport width is `0`. -/
def LogEntry.fullMessageExtraRows (viewportWidth : Nat) (e : LogEntry) : Nat :=
  (splitLines e.message).foldl
    (fun lineCount line =>
      (line.foldl
        (fun (acc : Nat × Nat) _ =>
          if acc.2 ≥ viewportWidth then (acc.1 + 1, acc.2 - viewportWidth) else acc)
        (lineCount, 0)).1 + 1)
    0

/-- The row count returned by `LogEntry::draw` (`log.rs` line 123): one
summary row plus, when the full message is toggled, the extra rows. -/
def LogEntry.drawRowCount (viewportWidth : Nat) (e : LogEntry) (full : Bool) : Nat :=
  if full then 1 + e.fullMessageExtraRows viewportWidth else 1

/-- Modelled from the spec: the extra-row count §4.2 prescribes — for each
message line, one row for the line itself plus one wrapped row each time the
cumulative printed column count (advanced by one per printed character)
exceeds the viewport width. -/
def specFullMessageExtraRows (viewportWidth : Nat) (message : List Char) : Nat :=
  (splitLines message).foldl
    (fun lineCount line =>
      (line.foldl
        (fun (acc : Nat × Nat) _ =>
          let x := acc.2 + 1
          if x > viewportWidth then (acc.1 + 1, x - viewportWidth) else (acc.1, x))
        (lineCount, 0)).1 + 1)
    0

namespace Diff

/-- `State` from `diff.rs` (the diff mode's two-state lifecycle). -/
inductive ModeState
  | Idle
  | Waiting
  deriving DecidableEq

/-- `Mode` from `diff.rs`: its execution state, the `Output` buffer's text,
and the mode it was entered from (`from` in the source). -/
structure Mode where
  state : ModeState
  output : List Char
  fromMode : ModeKind
  deriving DecidableEq

/-- `Mode::on_enter` from `diff.rs`: a no-op while `Waiting`, otherwise move
to `Waiting`, remember the origin mode and clear the output. -/
def Mode.on_enter (m : Mode) (info : ModeChangeInfo) : Mode :=
  match m.state with
  | .Waiting => m
  | .Idle => { m with state := .Waiting, fromMode := info.fromMode, output := [] }

/-- `Mode::on_response` from `diff.rs`: leave `Waiting`, format the raw diff
text and replace the output with the markup; `none` embeds a parser panic. -/
def Mode.on_response (m : Mode) (info : List Char) : Option Mode :=
  let m1 :=
    match m.state with
    | .Waiting => { m with state := ModeState.Idle }
    | .Idle => m
  match m1.state with
  | .Idle =>
    match format_files_diff info with
    | some out => some { m1 with output := out }
    | none => none
  | .Waiting => some m1

end Diff

/-! Concrete sample values used by the witness and counterexample theorems. -/

/-- A document holding one file with no hunk yet, as it stands when the
parser reaches `FileEnd`. -/
def c3Doc : Diff.FilesDiff :=
  ⟨[⟨"f.txt".toList, Diff.FileMode.Modified, []⟩]⟩

/-- A log entry whose only distinctive field is its hash. -/
def sampleEntry : LogEntry :=
  { graph := [], hash := "abc123".toList, date := [], author := [], refs := [],
    message := "first line".toList }

/-- An idle log mode holding one entry with the cursor on it — the
pagination trigger situation of `log.rs` line 164. -/
def c2Mode : Log.Mode :=
  { state := .Idle, entries := [sampleEntry], output := [], cursor := 0,
    visible := [0], filterQuery := [], filterHasFocus := false,
    showFullHoveredMessage := false }

/-- A log mode already waiting on a refresh. -/
def c5LogMode : Log.Mode :=
  { state := .Waiting .Refresh, entries := [sampleEntry], output := [],
    cursor := 0, visible := [0], filterQuery := [], filterHasFocus := false,
    showFullHoveredMessage := false }

/-- A diff mode already waiting on its refresh. -/
def c5DiffMode : Diff.Mode :=
  { state := .Waiting, output := "old".toList, fromMode := .Log }

/-- An idle log mode whose filtered visible set is empty. -/
def c9Mode : Log.Mode :=
  { state := .Idle, entries := [], output := [], cursor := 0, visible := [],
    filterQuery := [], filterHasFocus := false, showFullHoveredMessage := false }

/-- A log entry with a single ten-character message line. -/
def c4Entry : LogEntry :=
  { graph := [], hash := [], date := [], author := [], refs := [],
    message := "aaaaaaaaaa".toList }

/-- The well-formed two-file diff of §8: `file1.txt` modified with one hunk
starting at new-file line 10, `file2.txt` deleted with one single-line-range
hunk (no comma, hence starting line number 0). -/
def c8Input : List Char :=
  ("diff --git a/file1.txt b/file1.txt\n"
    ++ "--- a/file1.txt\n"
    ++ "+++ b/file1.txt\n"
    ++ "@@ -1,5 +10,6 @@ ctx\n"
    ++ " context line\n"
    ++ "diff --git a/file2.txt b/file2.txt\n"
    ++ "deleted file mode 100644\n"
    ++ "--- a/file2.txt\n"
    ++ "+++ /dev/null\n"
    ++ "@@ -1 +0 @@\n"
    ++ "-old content\n").toList

/-- The markup `format_files_diff` serializes for `c8Input`. -/
def c8Output : List Char :=
  ("@@@L\n"
    ++ "@@@HModified: file1.txt\n"
    ++ "@@@L\n"
    ++ "@@@N@--- file1.txt:Line 10 ---@\n"
    ++ "ctx\n"
    ++ " context line\n"
    ++ "@@@L\n"
    ++ "@@@HDeleted: file2.txt\n"
    ++ "@@@L\n"
    ++ "@@@N@--- file2.txt:Line 0 ---@\n"
    ++ "-old content\n").toList

/-! Theorems. -/

/-- C1: when Log mode's `on_response` receives a Refresh result
`Ok((start_index, new_entries))` the state reaches `Idle` and the entry list
becomes the old list truncated to `start_index` followed by `new_entries`;
on `Err(message)` the entry list becomes empty and the output text becomes
the error message. -/
theorem C1_refresh_merge (m : Log.Mode) (startIndex : Nat)
    (newEntries : List LogEntry) (err : List Char) :
    (m.on_response (Except.ok (startIndex, newEntries))).state = Log.State.Idle
    ∧ (m.on_response (Except.ok (startIndex, newEntries))).entries
        = m.entries.take startIndex ++ newEntries
    ∧ (m.on_response (Except.error err)).state = Log.State.Idle
    ∧ (m.on_response (Except.error err)).entries = []
    ∧ (m.on_response (Except.error err)).output = err := by
  cases h : m.state <;>
    simp [Log.Mode.on_response, h]

/-- C3: the hunk marker `@@ -1,5 +10,6 @@ some context` yields starting line
number 10, entering `LineHeader 10`, and `some context` is captured as the
first text fragment of the new hunk; the comma-free marker `@@ -1 +7 @@`
yields starting line number 0 with no captured fragment. -/
theorem C3_hunk_marker :
    Diff.ParseEvent.new Diff.ParseState.FileEnd ("@@ -1,5 +10,6 @@ some context".toList)
      = some (Diff.ParseEvent.LineDiffStart 10)
    ∧ Diff.ParseState.line Diff.ParseState.FileEnd ("@@ -1,5 +10,6 @@ some context".toList)
      = some (Diff.ParseState.LineHeader 10)
    ∧ Diff.ParseState.output (Diff.ParseState.LineHeader 10)
        ("@@ -1,5 +10,6 @@ some context".toList) c3Doc
      = some ⟨[⟨"f.txt".toList, Diff.FileMode.Modified,
          [⟨10, "some context\n".toList⟩]⟩]⟩
    ∧ Diff.ParseEvent.new Diff.ParseState.FileEnd ("@@ -1 +7 @@".toList)
      = some (Diff.ParseEvent.LineDiffStart 0)
    ∧ Diff.ParseState.line Diff.ParseState.FileEnd ("@@ -1 +7 @@".toList)
      = some (Diff.ParseState.LineHeader 0)
    ∧ Diff.ParseState.output (Diff.ParseState.LineHeader 0)
        ("@@ -1 +7 @@".toList) c3Doc
      = some ⟨[⟨"f.txt".toList, Diff.FileMode.Modified, [⟨0, []⟩]⟩]⟩ := by
  decide

/-- C4: at viewport width 4 a full message of one ten-character line is
reported as a single extra row by `LogEntry::draw` — the column counter `x`
is never advanced, so the wrap branch never fires — while the spec's formula
(one row for the line plus one wrapped row per overflow of the cumulative
printed column count) yields three extra rows. -/
theorem C4_wrap_count_divergence :
    LogEntry.drawRowCount 4 c4Entry true = 2
    ∧ specFullMessageExtraRows 4 c4Entry.message = 3
    ∧ LogEntry.drawRowCount 4 c4Entry true ≠ 1 + specFullMessageExtraRows 4 c4Entry.message := by
  decide

/-- C5: for both modes, `on_enter` while already `Waiting` is a no-op — the
mode record (state, output, entries, filter) is returned unchanged and no
backend request is issued. -/
theorem C5_on_enter_noop (lm : Log.Mode) (op : Log.WaitOperation)
    (hl : lm.state = Log.State.Waiting op)
    (dm : Diff.Mode) (hd : dm.state = Diff.ModeState.Waiting)
    (info : ModeChangeInfo) :
    lm.on_enter = (lm, []) ∧ dm.on_enter info = dm := by
  constructor
  · simp [Log.Mode.on_enter, hl]
  · simp [Diff.Mode.on_enter, hd]

/-- C5 witness: concrete waiting modes on which `on_enter` changes nothing
and issues nothing. -/
theorem C5_on_enter_noop_witness :
    c5LogMode.on_enter = (c5LogMode, []) ∧ c5DiffMode.on_enter ⟨.Log⟩ = c5DiffMode :=
  C5_on_enter_noop c5LogMode .Refresh rfl c5DiffMode rfl ⟨.Log⟩

/-- C8: the two-file diff serializes to markup holding exactly two `@@@H`
header-content lines (`Modified: file1.txt`, `Deleted: file2.txt`), each
bracketed by `@@@L` sentinel lines, and exactly two `@@@N` hunk lines of the
form `@--- <filename>:Line <line_number> ---@` with lines 10 and 0. -/
theorem C8_round_trip :
    Diff.format_files_diff c8Input = some c8Output
    ∧ splitLines c8Output =
        ["@@@L".toList, "@@@HModified: file1.txt".toList, "@@@L".toList,
          "@@@N@--- file1.txt:Line 10 ---@".toList, "ctx".toList,
          " context line".toList, "@@@L".toList, "@@@HDeleted: file2.txt".toList,
          "@@@L".toList, "@@@N@--- file2.txt:Line 0 ---@".toList,
          "-old content".toList]
    ∧ (splitLines c8Output).filter (fun l => listStartsWith ("@@@H".toList) l)
        = ["@@@HModified: file1.txt".toList, "@@@HDeleted: file2.txt".toList]
    ∧ (splitLines c8Output).filter (fun l => listStartsWith ("@@@N".toList) l)
        = ["@@@N@--- file1.txt:Line 10 ---@".toList,
            "@@@N@--- file2.txt:Line 0 ---@".toList] := by
  decide

theorem listStartsWith_append (p l t : List Char)
    (h : listStartsWith p l = true) : listStartsWith p (l ++ t) = true := by
  induction p generalizing l with
  | nil => simp [listStartsWith]
  | cons a ps ih =>
    cases l with
    | nil => simp [listStartsWith] at h
    | cons b bs =>
      simp only [List.cons_append, listStartsWith, Bool.and_eq_true] at h ⊢
      exact ⟨h.1, ih bs h.2⟩

theorem listStartsWith_dropLast (p l : List Char)
    (h : listStartsWith p l.dropLast = true) : listStartsWith p l = true := by
  rw [List.dropLast_eq_take] at h
  have h2 := listStartsWith_append p _ (l.drop (l.length - 1)) h
  rwa [List.take_append_drop] at h2

theorem listStartsWith_stripCR (p l : List Char)
    (h : listStartsWith p (stripCR l) = true) : listStartsWith p l = true := by
  unfold stripCR at h
  split at h
  · split at h
    · exact listStartsWith_dropLast p l h
    · exact h
  · exact h

/-- The first line produced by `splitLinesAux` starts every string that was
still accumulating: a prefix of the first line is a prefix of the remaining
raw text (with the accumulator restored in front). -/
theorem splitLinesAux_head (cs : List Char) :
    ∀ acc : List Char, acc ≠ [] ∨ cs ≠ [] →
      ∃ first rest, splitLinesAux acc cs = first :: rest
        ∧ ∀ p, listStartsWith p first = true →
            listStartsWith p (acc.reverse ++ cs) = true := by
  induction cs with
  | nil =>
    intro acc hne
    rcases hne with hne | hne
    · refine ⟨acc.reverse, [], ?_, ?_⟩
      · simp [splitLinesAux, List.isEmpty_iff, hne]
      · intro p hp
        simpa using hp
    · exact absurd rfl hne
  | cons c rest ih =>
    intro acc _
    by_cases hc : c = '\n'
    · subst hc
      refine ⟨stripCR acc.reverse, splitLinesAux [] rest, ?_, ?_⟩
      · simp [splitLinesAux]
      · intro p hp
        exact listStartsWith_append _ _ _ (listStartsWith_stripCR _ _ hp)
    · obtain ⟨first, rest2, heq, hpre⟩ := ih (c :: acc) (Or.inl (by simp))
      refine ⟨first, rest2, ?_, ?_⟩
      · rw [splitLinesAux, if_neg hc]
        exact heq
      · intro p hp
        have h2 := hpre p hp
        simpa [List.append_assoc] using h2

theorem ParseEvent_new_not_fileStart (st : Diff.ParseState) (l fn : List Char)
    (mo : Diff.FileMode)
    (h : listStartsWith ("diff --git".toList) l = false) :
    Diff.ParseEvent.new st l ≠ some (Diff.ParseEvent.FileDiffStart fn mo) := by
  unfold Diff.ParseEvent.new
  simp only [h, Bool.false_eq_true, if_false]
  repeat' split
  all_goals simp

theorem startStep_none (l : List Char)
    (h : listStartsWith ("diff --git".toList) l = false) :
    Diff.ParseState.line Diff.ParseState.Start l = none := by
  cases hev : Diff.ParseEvent.new Diff.ParseState.Start l with
  | none => simp [Diff.ParseState.line, hev]
  | some ev =>
    rcases ev with ⟨fn, mo⟩ | mo | _ | _ | n | _
    · exact absurd hev (ParseEvent_new_not_fileStart _ _ fn mo h)
    all_goals simp [Diff.ParseState.line, hev]

/-- A raw text that does not begin with the file-introduction marker cannot
be parsed: its first line fails the `Start` transition. -/
theorem formatFilesDiff_fail (cs : List Char) (hne : cs ≠ [])
    (h : listStartsWith ("diff --git".toList) cs = false) :
    Diff.format_files_diff cs = none := by
  obtain ⟨first, rest, heq, hpre⟩ := splitLinesAux_head cs [] (Or.inr hne)
  have hf : listStartsWith ("diff --git".toList) first = false := by
    cases hb : listStartsWith ("diff --git".toList) first
    · rfl
    · have hc := hpre _ hb
      rw [List.reverse_nil, List.nil_append, h] at hc
      exact absurd hc (by simp)
  have hsplit : splitLines cs = first :: rest := heq
  unfold Diff.format_files_diff
  rw [hsplit]
  simp [Diff.parseLoop, startStep_none first hf]

/-- C10: the empty raw text parses to the empty markup, while every
non-empty text not beginning with the file-introduction marker fails the
parse. -/
theorem C10_empty_diff :
    Diff.format_files_diff [] = some []
    ∧ ∀ cs : List Char, cs ≠ [] →
        listStartsWith ("diff --git".toList) cs = false →
        Diff.format_files_diff cs = none := by
  refine ⟨by decide, ?_⟩
  intro cs hne h
  exact formatFilesDiff_fail cs hne h

/-- C10 witness: a one-line ordinary-content text fails the parse. -/
theorem C10_empty_diff_witness :
    Diff.format_files_diff ("hello".toList) = none :=
  C10_empty_diff.2 ("hello".toList) (by decide) (by decide)

/-- C7: a raw text whose first line is ordinary content (none of the four
markers) fails the parse rather than producing an empty document, and any
line whose state/event combination is refused by the transition table makes
the whole document fail — `parseLoop` propagates the failure instead of
skipping the line. -/
theorem C7_malformed_parse_fails :
    (∀ cs : List Char, cs ≠ [] →
      listStartsWith ("diff --git".toList) cs = false →
      listStartsWith ("---".toList) cs = false →
      listStartsWith ("+++".toList) cs = false →
      listStartsWith ("@@ ".toList) cs = false →
      Diff.format_files_diff cs = none)
    ∧ ∀ (st : Diff.ParseState) (fd : Diff.FilesDiff) (l : List Char)
        (rest : List (List Char)),
        Diff.ParseState.line st l = none →
        Diff.parseLoop st fd (l :: rest) = none := by
  constructor
  · intro cs hne h1 _ _ _
    exact formatFilesDiff_fail cs hne h1
  · intro st fd l rest hstep
    simp [Diff.parseLoop, hstep]

/-- C7 witness: a text beginning with ordinary content fails, and a refused
`Start`-state line poisons the whole loop. -/
theorem C7_malformed_parse_fails_witness :
    Diff.format_files_diff ("context only".toList) = none
    ∧ Diff.parseLoop Diff.ParseState.Start ⟨[]⟩ ["oops".toList, "more".toList] = none := by
  constructor
  · exact C7_malformed_parse_fails.1 ("context only".toList)
      (by decide) (by decide) (by decide) (by decide) (by decide)
  · exact C7_malformed_parse_fails.2 Diff.ParseState.Start ⟨[]⟩ ("oops".toList)
      ["more".toList] (by decide)

theorem saturateCursor_lt_max (c n : Nat) : saturateCursor c n < max 1 n := by
  unfold saturateCursor
  split
  · omega
  · have h2 := Nat.min_le_right c (n - 1)
    omega

/-- C6: after every Log-mode Refresh response — Ok or Err, whatever the
prior state — the visible set is the filter re-applied over the full entry
set and the cursor is clamped into `[0, visible_count)`, in particular to 0
when the visible count is 0. -/
theorem C6_refilter_and_clamp (m : Log.Mode)
    (r : Except (List Char) (Nat × List LogEntry)) :
    (m.on_response r).visible
        = applyFilter (m.on_response r).filterQuery (m.on_response r).entries
    ∧ (m.on_response r).cursor < max 1 (m.on_response r).visible.length := by
  constructor
  · cases h : m.state <;> rcases r with err | ⟨s, es⟩ <;>
      simp [Log.Mode.on_response, h]
  · cases h : m.state <;> rcases r with err | ⟨s, es⟩ <;>
      · simp only [Log.Mode.on_response, h]
        exact saturateCursor_lt_max _ _

/-- C2 counterexample: with the cursor on the last loaded entry in `Idle`,
one key event issues the pagination fetch and moves the state to
`Waiting(Refresh)` — the fetch is gated through the single-flight state,
contrary to the claim. -/
theorem C2_pagination_counterexample :
    (c2Mode.on_key 10 (Key.Char 'x')).1.state
        = Log.State.Waiting Log.WaitOperation.Refresh
    ∧ (c2Mode.on_key 10 (Key.Char 'x')).2.1 = [Request.logPage 1 10] := by
  decide

theorem keyCommand_state_of_waiting (m : Log.Mode) (cei : Option Nat)
    (key : Key) (op : Log.WaitOperation) (h : m.state = Log.State.Waiting op) :
    (m.keyCommand cei key).1.state = m.state := by
  cases key with
  | Enter => cases cei <;> simp [Log.Mode.keyCommand]
  | Tab => simp [Log.Mode.keyCommand]
  | Ctrl c =>
    by_cases hcf : c = 'f'
    · simp [Log.Mode.keyCommand, hcf]
    · simp [Log.Mode.keyCommand, hcf, Log.Mode.idleCommand, h]
  | Char c => simp [Log.Mode.keyCommand, Log.Mode.idleCommand, h]
  | Up => simp [Log.Mode.keyCommand, Log.Mode.idleCommand, h]
  | Down => simp [Log.Mode.keyCommand, Log.Mode.idleCommand, h]
  | PageUp => simp [Log.Mode.keyCommand, Log.Mode.idleCommand, h]
  | PageDown => simp [Log.Mode.keyCommand, Log.Mode.idleCommand, h]
  | Home => simp [Log.Mode.keyCommand, Log.Mode.idleCommand, h]
  | End => simp [Log.Mode.keyCommand, Log.Mode.idleCommand, h]

/-- C2 amended: the pagination fetch, issued when the selection cursor sits
on the last loaded entry while the state is `Idle`, transitions the mode to
`Waiting(Refresh)` — it is gated through the same single-flight state as the
other commands — and requests the next page starting at `entries.len()`. -/
theorem C2_pagination_gated (m : Log.Mode) (h : Nat) (key : Key) (i : Nat)
    (hf : m.filterHasFocus = false) (hs : m.state = Log.State.Idle)
    (hi : m.visible.get? (selectOnKey m.visible.length h m.cursor key) = some i)
    (hl : i + 1 = m.entries.length) :
    (m.on_key h key).1.state = Log.State.Waiting Log.WaitOperation.Refresh
    ∧ Request.logPage m.entries.length h ∈ (m.on_key h key).2.1 := by
  have hkey : m.on_key h key = m.on_key_unfocused h key := by
    unfold Log.Mode.on_key
    rw [hf]
    rfl
  rw [hkey]
  unfold Log.Mode.on_key_unfocused
  simp only [hi]
  have hfires :
      Log.Mode.paginationFires
        { m with cursor := selectOnKey m.visible.length h m.cursor key } (some i) = true := by
    simp [Log.Mode.paginationFires, hs, hl]
  simp only [hfires, if_true]
  constructor
  · exact keyCommand_state_of_waiting _ (some i) key Log.WaitOperation.Refresh rfl
  · simp

/-- C2 witness for the amended claim, on the concrete pagination situation. -/
theorem C2_pagination_gated_witness :
    (c2Mode.on_key 10 (Key.Char 'z')).1.state
        = Log.State.Waiting Log.WaitOperation.Refresh
    ∧ Request.logPage 1 10 ∈ (c2Mode.on_key 10 (Key.Char 'z')).2.1 :=
  C2_pagination_gated c2Mode 10 (Key.Char 'z') 0 rfl rfl (by decide) (by decide)

/-- C9: in `Idle`, the command keys `c`, `r` and `m` are no-ops when the
filtered visible set is empty: the state stays `Idle`, the entry list is
unchanged, and no request is issued. -/
theorem C9_revision_commands_noop (m : Log.Mode) (h : Nat) (c : Char)
    (hc : c = 'c' ∨ c = 'r' ∨ c = 'm')
    (hs : m.state = Log.State.Idle)
    (hv : m.visible = []) :
    (m.on_key h (Key.Char c)).1.state = Log.State.Idle
    ∧ (m.on_key h (Key.Char c)).1.entries = m.entries
    ∧ (m.on_key h (Key.Char c)).2.1 = [] := by
  cases hf : m.filterHasFocus
  · rcases hc with rfl | rfl | rfl <;>
      simp [Log.Mode.on_key, Log.Mode.on_key_unfocused, Log.Mode.paginationFires,
        Log.Mode.keyCommand, Log.Mode.idleCommand, hf, hs, hv, selectOnKey]
  · rcases hc with rfl | rfl | rfl <;>
      simp [Log.Mode.on_key, hf, hs]

/-- C9 witness: on an idle mode with an empty visible set, `c` does
nothing. -/
theorem C9_revision_commands_noop_witness :
    (c9Mode.on_key 5 (Key.Char 'c')).1.state = Log.State.Idle
    ∧ (c9Mode.on_key 5 (Key.Char 'c')).1.entries = c9Mode.entries
    ∧ (c9Mode.on_key 5 (Key.Char 'c')).2.1 = [] :=
  C9_revision_commands_noop c9Mode 5 'c' (Or.inl rfl) rfl rfl
